import Mathlib

/-!
Verification of the pwcli vault persistence and authentication engine
(src/crypto.js, src/ratelimit.js, src/vault.js, src/validation.js).

The JavaScript source is shallowly embedded: stateful code is explicit
state passing, fallible code returns `Except`, and the external Node.js
crypto primitives (scrypt, AES-256-GCM) are modelled symbolically as an
ideal deterministic authenticated-encryption scheme — the key is the
(password, salt) pair, a ciphertext records the key, nonce and plaintext
that produced it, and the auth tag verifies exactly when key, nonce and
ciphertext all match.  JSON serialization of a vault record is elided
(JSON.stringify / JSON.parse form a bijection on the JSON-serializable
records these claims quantify over).  Randomness (fresh salt / IV) and
file-system faults are passed as explicit parameters.
-/

namespace Pwcli

/-- One credential entry: `{ username?, password }` (README vault shape). -/
structure EntryRec where
  username : Option String
  password : String
deriving DecidableEq, Repr

/-- The decrypted vault record `{ entries, createdAt, updatedAt }`
(src/vault.js `createVault`); `entries` is a JS object, modelled as an
insertion-ordered association list. -/
structure VaultRecord where
  entries : List (String × EntryRec)
  createdAt : String
  updatedAt : String
deriving DecidableEq, Repr

/-- The ideal scrypt model: `deriveKey(password, salt)` (src/crypto.js) is
deterministic in `(password, salt)` and, ideally, injective — the derived
key is represented by the pair itself. -/
structure DerivedKey where
  password : String
  salt : List Nat
deriving DecidableEq, Repr

/-- src/crypto.js `deriveKey`: scrypt, modelled as the ideal KDF. -/
def deriveKey (password : String) (salt : List Nat) : DerivedKey :=
  ⟨password, salt⟩

/-- Symbolic AES-256-GCM ciphertext: records which key, IV and plaintext
produced it (`cipher.update/final` in src/crypto.js `encryptJson`). -/
inductive Ciphertext where
  | enc (key : DerivedKey) (iv : List Nat) (pt : VaultRecord)
deriving DecidableEq, Repr

/-- Symbolic GCM auth tag (`cipher.getAuthTag()`): verification succeeds
exactly when key, IV and ciphertext match the tag. -/
inductive AuthTag where
  | tag (key : DerivedKey) (iv : List Nat) (pt : VaultRecord)
deriving DecidableEq, Repr

/-- The encrypted payload `{ kdf, salt, iv, authTag, data }` returned by
src/crypto.js `encryptJson` (base64 transport encoding elided — it is a
bijection on bytes). -/
structure Envelope where
  kdf : String
  salt : List Nat
  iv : List Nat
  authTag : AuthTag
  data : Ciphertext
deriving DecidableEq, Repr

/-- src/crypto.js `encryptJson(obj, password)`: generates a random salt
and IV (passed here as parameters standing for `crypto.randomBytes`),
derives the key, encrypts and tags.  The `secureWipe` calls in the
source overwrite buffers already copied into the returned envelope and
do not affect the returned value. -/
def encryptJson (obj : VaultRecord) (password : String)
    (salt iv : List Nat) : Envelope :=
  let key := deriveKey password salt
  { kdf := "scrypt"
    salt := salt
    iv := iv
    authTag := .tag key iv obj
    data := .enc key iv obj }

/-- The single generic error message thrown by src/crypto.js
`decryptJson` on every failure path. -/
def decryptionFailedMsg : String :=
  "Decryption failed - invalid password or corrupted vault"

/-- src/crypto.js `decryptJson(payload, password)`: derives the key from
the envelope's salt, sets the auth tag and decrypts; GCM decryption
yields the plaintext exactly when the ciphertext was produced under the
derived key and the envelope's IV and the tag matches; every failure is
caught and rethrown as the one generic error message. -/
def decryptJson (payload : Envelope) (password : String) :
    Except String VaultRecord :=
  match payload.data with
  | .enc k i pt =>
    if k = deriveKey password payload.salt ∧ i = payload.iv ∧
        payload.authTag = .tag k i pt then
      .ok pt
    else
      .error decryptionFailedMsg

/-- Code points treated as whitespace by JavaScript's
`String.prototype.trim` (ECMAScript WhiteSpace and LineTerminator). -/
def jsWhitespaceCodes : List Nat :=
  [9, 10, 11, 12, 13, 32, 160, 0x1680, 0x2000, 0x2001, 0x2002, 0x2003,
   0x2004, 0x2005, 0x2006, 0x2007, 0x2008, 0x2009, 0x200A, 0x2028,
   0x2029, 0x202F, 0x205F, 0x3000, 0xFEFF]

/-- Whether a character is JS-trim whitespace. -/
def jsIsWhiteSpace (c : Char) : Bool :=
  jsWhitespaceCodes.contains c.toNat

/-- JavaScript `String.prototype.trim`: strips leading and trailing
whitespace code points. -/
def jsTrim (s : String) : String :=
  String.mk
    (((s.data.dropWhile jsIsWhiteSpace).reverse.dropWhile
        jsIsWhiteSpace).reverse)

/-- The `{ valid, error? }` result shape of src/validation.js. -/
structure ValidationResult where
  valid : Bool
  error : Option String
deriving DecidableEq, Repr

/-- src/validation.js `validateEntryKey(key)`: rejects empty or
whitespace-only keys, keys longer than 255 (JS `key.length`, i.e.
UTF-16 code units — identical to the character count on the BMP strings
modelled here), keys containing NUL, LF or CR (`key.includes(c)` for a
single character is membership), and keys with leading or trailing
whitespace. -/
def validateEntryKey (key : String) : ValidationResult :=
  if key = "" ∨ (jsTrim key).length = 0 then
    ⟨false, some "Entry name cannot be empty"⟩
  else if 255 < key.length then
    ⟨false, some "Entry name too long (max 255 characters)"⟩
  else if Char.ofNat 0 ∈ key.data ∨ Char.ofNat 10 ∈ key.data ∨
      Char.ofNat 13 ∈ key.data then
    ⟨false, some "Entry name contains invalid characters (null, newline)"⟩
  else if jsTrim key ≠ key then
    ⟨false, some "Entry name cannot start or end with whitespace"⟩
  else
    ⟨true, none⟩

/-- UTF-8 byte length of a string (what the claim's "≤255 bytes" would
measure; the source checks `key.length`, i.e. UTF-16 code units). -/
def utf8Len (s : String) : Nat :=
  (s.data.map Char.utf8Size).sum

/-- A 255-character key of two-byte characters (é): 255 JS code units
but 510 UTF-8 bytes. -/
def wideKey : String :=
  String.mk (List.replicate 255 (Char.ofNat 233))

/-- The persisted throttle state `{ lastAttempt, failedAttempts,
lockedUntil }` of src/ratelimit.js (`0` stands for the absent / falsy
default, matching `getAttempts`' ENOENT fallback). -/
structure AttemptsState where
  lastAttempt : Nat
  failedAttempts : Nat
  lockedUntil : Nat
deriving DecidableEq, Repr

/-- Outcome of reading the attempts file in `getAttempts`: a parsed
state, a missing file (ENOENT), or any other read failure. -/
inductive ReadAttempts where
  | ok (st : AttemptsState)
  | enoent
  | err
deriving DecidableEq, Repr

/-- src/ratelimit.js `PersistentRateLimiter.getAttempts()`: returns the
parsed file, substitutes the zero state on ENOENT, and rethrows every
other read error. -/
def getAttempts : ReadAttempts → Except String AttemptsState
  | .ok st => .ok st
  | .enoent => .ok ⟨0, 0, 0⟩
  | .err => .error "attempts file read failed"

/-- `this.maxFailedAttempts` in src/ratelimit.js. -/
def maxFailedAttempts : Nat := 10

/-- `this.lockoutDuration` in src/ratelimit.js: 5 minutes in ms. -/
def lockoutDurationMs : Nat := 300000

/-- The lockout message thrown by `waitIfNeeded`
(`Math.ceil(waitTime / 60000)` on a positive wait is
`(waitTime + 59999) / 60000`).  Note the capital L in "Locked out". -/
def lockoutMessage (waitTime : Nat) : String :=
  "Too many failed attempts. Locked out for " ++
    toString ((waitTime + 59999) / 60000) ++ " more minutes."

/-- Whether `sub` is a prefix of `l`, by character comparison. -/
def startsWithChars : List Char → List Char → Bool
  | [], _ => true
  | _ :: _, [] => false
  | a :: as, b :: bs => a = b && startsWithChars as bs

/-- Whether `sub` occurs contiguously inside `l`. -/
def containsChars : List Char → List Char → Bool
  | [], sub => startsWithChars sub []
  | a :: t, sub => startsWithChars sub (a :: t) || containsChars t sub

/-- JavaScript `String.prototype.includes`: case-sensitive substring
containment. -/
def jsIncludes (s sub : String) : Bool :=
  containsChars s.data sub.data

/-- src/ratelimit.js `PersistentRateLimiter.waitIfNeeded()`: loads the
persisted state; if `lockedUntil` is a future timestamp it throws the
lockout message; otherwise it sleeps out the remaining inter-attempt
delay (the sleep is elided — it does not affect the returned value) and
returns `true`.  The surrounding catch rethrows only errors whose
message includes the lowercase string `"locked out"` and otherwise
returns `false` (the in-memory fallback). -/
def waitIfNeeded (read : ReadAttempts) (now _minDelay : Nat) :
    Except String Bool :=
  let tryResult : Except String Bool :=
    match getAttempts read with
    | .error m => .error m
    | .ok st =>
      if st.lockedUntil ≠ 0 ∧ now < st.lockedUntil then
        .error (lockoutMessage (st.lockedUntil - now))
      else
        .ok true
  match tryResult with
  | .ok b => .ok b
  | .error m => if jsIncludes m "locked out" then .error m else .ok false

/-- The state-update body of src/ratelimit.js
`PersistentRateLimiter.recordFailure()`: resets the counter when more
than `2 × minDelay` ms have elapsed since `lastAttempt`, stamps
`lastAttempt := now`, increments the counter, and on reaching the
threshold sets `lockedUntil := now + lockoutDuration`. -/
def recordFailureCore (st : AttemptsState) (now minDelay : Nat) :
    AttemptsState :=
  let fa0 :=
    if st.lastAttempt ≠ 0 ∧ 2 * minDelay < now - st.lastAttempt then 0
    else st.failedAttempts
  let fa := fa0 + 1
  { lastAttempt := now
    failedAttempts := fa
    lockedUntil :=
      if maxFailedAttempts ≤ fa then now + lockoutDurationMs
      else st.lockedUntil }

/-- The try-block of `recordFailure`: read (rethrowing non-ENOENT read
errors), update, then persist via `saveAttempts` (whose write failure
also throws). -/
def recordFailureTry (read : ReadAttempts) (writeOk : Bool)
    (now minDelay : Nat) : Except String AttemptsState :=
  match getAttempts read with
  | .error m => .error m
  | .ok st =>
    let st' := recordFailureCore st now minDelay
    if writeOk then .ok st' else .error "attempts file write failed"

/-- src/ratelimit.js `PersistentRateLimiter.recordFailure()`: the catch
swallows every failure (console.warn only), so the call never raises;
the result is the state persisted to the attempts file, or `none` when
nothing was persisted. -/
def recordFailure (read : ReadAttempts) (writeOk : Bool)
    (now minDelay : Nat) : Except String (Option AttemptsState) :=
  match recordFailureTry read writeOk now minDelay with
  | .ok st' => .ok (some st')
  | .error _ => .ok none

/-- Whether an `Except` carries a success value. -/
def exOk {ε α : Type} : Except ε α → Bool
  | .ok _ => true
  | .error _ => false

/-- One audit record `{ timestamp, action, details, result, pid }`
(src/vault.js `AuditLogger.log`). -/
structure LogEntry where
  timestamp : String
  action : String
  details : String
  result : String
  pid : Nat
deriving DecidableEq, Repr

/-- `this.maxEntries` of `AuditLogger` in src/vault.js. -/
def auditMaxEntries : Nat := 1000

/-- src/vault.js `AuditLogger.log(action, details, result)` as a
transition on the audit file's content (`none` = absent).  `readFault`
models a non-ENOENT read failure or unparsable file (the inner catch
warns and returns, leaving the file alone); an absent file reads as the
empty list; the entry is appended, the list capped to the most recent
`maxEntries` by `slice(-maxEntries)`, and written back; a write failure
is swallowed by the outer catch (warn only), leaving the file alone.
The call never raises. -/
def auditLogStep (file : Option (List LogEntry)) (readFault writeOk : Bool)
    (e : LogEntry) : Except String (Option (List LogEntry)) :=
  if readFault then .ok file
  else
    let existing := file.getD []
    let pushed := existing ++ [e]
    let capped :=
      if auditMaxEntries < pushed.length then
        pushed.drop (pushed.length - auditMaxEntries)
      else pushed
    if writeOk then .ok (some capped) else .ok file

/-- A concrete audit record. -/
def auditEntryA : LogEntry := ⟨"t1", "vault_access", "", "failure", 1⟩

/-- Another concrete audit record. -/
def auditEntryB : LogEntry := ⟨"t2", "vault_access", "", "success", 1⟩

/-- A prior audit file holding 1001 entries. -/
def oversizedAudit : List LogEntry := List.replicate 1001 auditEntryA

/-- An on-disk vault file: its envelope content plus its byte length
(`stat.size`; the serialized length is not computed by the symbolic
model, so it is carried as data). -/
structure VFile where
  env : Envelope
  size : Nat
deriving DecidableEq, Repr

/-- The file system visible to src/vault.js, as a map from path to
file content. -/
def FS : Type := String → Option VFile

/-- Writing (`some`) or unlinking (`none`) one path. -/
def fsSet (fs : FS) (p : String) (c : Option VFile) : FS :=
  fun q => if q = p then c else fs q

/-- The error thrown by src/vault.js `loadVault` on a missing file. -/
def notFoundMsg : String := "Vault file does not exist"

/-- src/vault.js `loadVault(vaultPath, password)`: awaits
`passwordRateLimiter.waitIfNeeded()` (whose error, were one ever
raised, would propagate), checks existence, reads and decrypts.  The
rate-limiter `reset`/`recordFailure` and the audit-log side effects
touch only their own files and swallow their own failures, so they do
not alter the returned value or the vault file system. -/
def loadVault (fs : FS) (path pw : String) (throttle : ReadAttempts)
    (tNow tMin : Nat) : Except String VaultRecord :=
  match waitIfNeeded throttle tNow tMin with
  | .error m => .error m
  | .ok _ =>
    match fs path with
    | none => .error notFoundMsg
    | some f => decryptJson f.env pw

/-- Outcome of `lockfile.lock` in src/vault.js `saveVault`: acquired, a
tolerated ENOENT (first save — no lock to release), or any other
failure, which is rethrown as the fatal lock error. -/
inductive LockOutcome where
  | acquired
  | enoent
  | failed
deriving DecidableEq, Repr

/-- Result of `saveVault`: the outcome, the file system afterwards, and
the caller-visible final state of the `vault` argument object (JS
passes the object by reference and `saveVault` mutates it). -/
structure SaveResult where
  result : Except String Unit
  fs : FS
  arg : VaultRecord

/-- src/vault.js `saveVault(vaultPath, password, vault)`: first mutates
the argument's `updatedAt` in place, then locks (ENOENT tolerated,
other failures fatal), encrypts the mutated record with a fresh
salt/IV, writes the envelope, and releases the lock on every path.
`writtenSize` is the byte length of the serialized envelope on disk. -/
def saveVault (fs : FS) (path pw : String) (v : VaultRecord)
    (now : String) (salt iv : List Nat) (lockOutcome : LockOutcome)
    (writeOk : Bool) (writtenSize : Nat) : SaveResult :=
  let v' := { v with updatedAt := now }
  match lockOutcome with
  | .failed => ⟨.error "Failed to acquire lock on vault file", fs, v'⟩
  | .acquired | .enoent =>
    let env := encryptJson v' pw salt iv
    if writeOk then
      ⟨.ok (), fsSet fs path (some ⟨env, writtenSize⟩), v'⟩
    else
      ⟨.error "vault file write failed", fs, v'⟩

/-- The deep copy `JSON.parse(JSON.stringify(vault))` in src/vault.js
`changeMasterPassword`: a structurally fresh record, so `saveVault`'s
in-place mutation reaches the clone, never the original. -/
def deepCopyVault (v : VaultRecord) : VaultRecord :=
  { entries :=
      v.entries.map fun kv =>
        (kv.1, { username := kv.2.username, password := kv.2.password })
    createdAt := v.createdAt
    updatedAt := v.updatedAt }

/-- Result of `changeMasterPassword`: the outcome, the file system
afterwards, and the final value of the in-memory decrypted vault
object obtained from `loadVault` (when one was obtained). -/
structure RekeyResult where
  result : Except String Unit
  fs : FS
  mem : Option VaultRecord

/-- src/vault.js `changeMasterPassword(vaultPath, oldPassword,
newPassword)`: decrypts with the old password, deep-copies the record,
re-encrypts and saves the clone under the new password, and on every
path best-effort-unlinks the (never actually created) `.backup` file
next to the vault. -/
def changeMasterPassword (fs : FS) (path oldPw newPw : String)
    (now : String) (salt iv : List Nat) (throttle : ReadAttempts)
    (tNow tMin : Nat) (lockOutcome : LockOutcome) (writeOk : Bool)
    (writtenSize : Nat) : RekeyResult :=
  match loadVault fs path oldPw throttle tNow tMin with
  | .error m => ⟨.error m, fsSet fs (path ++ ".backup") none, none⟩
  | .ok vault =>
    let vaultClone := deepCopyVault vault
    let sr := saveVault fs path newPw vaultClone now salt iv lockOutcome
      writeOk writtenSize
    let fs' := fsSet sr.fs (path ++ ".backup") none
    match sr.result with
    | .ok _ => ⟨.ok (), fs', some vault⟩
    | .error m => ⟨.error m, fs', some vault⟩

/-- Result of `moveVault`: the outcome and the file system afterwards. -/
structure MoveResult where
  result : Except String Unit
  fs : FS

/-- src/vault.js `moveVault(oldPath, newPath, password)`: verifies the
password against the source, checks the destination directory is
writable and the destination absent, copies the file (`corrupt` models
the copy being tampered with before verification — `none` is a faithful
copy), sets permissions, then verifies the copy by fully decrypting it
(`loadVault`) and comparing `stat` sizes; only then is the source
unlinked.  Any failure inside the verification try-block triggers the
rollback: the destination is unlinked best-effort (`unlinkNewOk`
false models a failed unlink, which is only warned about) and the
wrapped error is thrown. -/
def moveVault (fs : FS) (oldPath newPath pw : String)
    (throttle1 throttle2 : ReadAttempts) (tNow1 tNow2 tMin : Nat)
    (dirWritable : Bool) (corrupt : Option VFile)
    (unlinkOldOk unlinkNewOk : Bool) : MoveResult :=
  match loadVault fs oldPath pw throttle1 tNow1 tMin with
  | .error m => ⟨.error m, fs⟩
  | .ok _ =>
    if dirWritable = false then
      ⟨.error "Destination directory is not writable", fs⟩
    else
      match fs newPath with
      | some _ => ⟨.error "Destination file already exists", fs⟩
      | none =>
        match fs oldPath with
        | none => ⟨.error "vault copy failed", fs⟩
        | some src =>
          let dest := corrupt.getD src
          let fs1 := fsSet fs newPath (some dest)
          let tryResult : Except String FS :=
            match loadVault fs1 newPath pw throttle2 tNow2 tMin with
            | .error m => .error m
            | .ok _ =>
              if src.size ≠ dest.size then
                .error "File size mismatch after copy"
              else if unlinkOldOk then
                .ok (fsSet fs1 oldPath none)
              else
                .error "vault unlink failed"
          match tryResult with
          | .ok fs2 => ⟨.ok (), fs2⟩
          | .error m =>
            let fs2 := if unlinkNewOk then fsSet fs1 newPath none else fs1
            ⟨.error ("Failed to move vault - rolled back: " ++ m), fs2⟩

/-- A concrete vault record used by witnesses. -/
def sampleVault : VaultRecord :=
  ⟨[("github", ⟨some "alice", "s3cr3t"⟩)], "t0", "t0"⟩

/-- The sample vault sealed under "old-pw". -/
def sampleEnv : Envelope := encryptJson sampleVault "old-pw" [1] [2]

/-- A file system holding only the sample vault at "/v.json". -/
def sampleFs : FS :=
  fun p => if p = "/v.json" then some ⟨sampleEnv, 42⟩ else none

/-- A file system holding only the sample vault at "/a.json". -/
def moveFs : FS :=
  fun p => if p = "/a.json" then some ⟨sampleEnv, 42⟩ else none

end Pwcli

namespace Pwcli

/-- Helper: a string of length zero is the empty string. -/
theorem length_zero_eq_empty (s : String) (h : s.length = 0) : s = "" := by
  cases s with
  | mk data =>
    simp only [String.length] at h
    rw [List.length_eq_zero] at h
    subst h
    rfl

/-- C1: for every JSON-serializable vault record V, password P and fresh
salt/IV, decrypting the envelope produced by `encryptJson(V, P)` with
the same password P via `decryptJson` returns V itself (structurally
equal entries and timestamps). -/
theorem encrypt_decrypt_roundtrip (v : VaultRecord) (p : String)
    (salt iv : List Nat) :
    decryptJson (encryptJson v p salt iv) p = .ok v := by
  simp [decryptJson, encryptJson, deriveKey]

/-- C2: whenever `decryptJson` fails — on any envelope, for any cause —
the error is the single generic decryption-failure value, and no
plaintext is returned; in particular, for distinct passwords P ≠ P',
decrypting `encryptJson(V, P)` with P' always fails this way. -/
theorem decrypt_fail_closed (payload : Envelope) (pw : String)
    (v : VaultRecord) (p p' : String) (salt iv : List Nat)
    (hne : p ≠ p') :
    (∀ e : String, decryptJson payload pw = .error e →
      e = decryptionFailedMsg) ∧
    decryptJson (encryptJson v p salt iv) p' =
      .error decryptionFailedMsg := by
  constructor
  · intro e he
    cases hd : payload.data with
    | enc k i pt =>
      simp only [decryptJson, hd] at he
      split at he
      · exact Except.noConfusion he
      · injection he with h
        exact h.symm
  · simp [decryptJson, encryptJson, deriveKey, hne]

/-- Witness for C2 at concrete inputs: the vault sealed under "alpha"
fails closed when opened under "bravo". -/
theorem decrypt_fail_closed_witness :
    (∀ e : String,
        decryptJson (encryptJson ⟨[], "t0", "t0"⟩ "alpha" [1] [2]) "bravo" =
          .error e → e = decryptionFailedMsg) ∧
    decryptJson (encryptJson ⟨[], "t0", "t0"⟩ "alpha" [1] [2]) "bravo" =
      .error decryptionFailedMsg :=
  decrypt_fail_closed (encryptJson ⟨[], "t0", "t0"⟩ "alpha" [1] [2]) "bravo"
    ⟨[], "t0", "t0"⟩ "alpha" "bravo" [1] [2] (by decide)

set_option maxRecDepth 20000 in
/-- C8 counterexample: the claim's "≤255 bytes" and "no control
characters" both fail on the code.  `"a\tb"` contains TAB (a control
character, code point 9 < 32) yet is accepted, and a 255-character key
of two-byte characters (510 UTF-8 bytes > 255) is also accepted because
the source checks `key.length` (UTF-16 code units), not bytes. -/
theorem validateEntryKey_claim_false :
    (validateEntryKey "a\tb").valid = true ∧
    Char.ofNat 9 ∈ "a\tb".data ∧ (Char.ofNat 9).toNat < 32 ∧
    (validateEntryKey wideKey).valid = true ∧
    utf8Len wideKey = 510 ∧ 255 < utf8Len wideKey := by
  refine ⟨by decide, by decide, by decide, ?_, by decide, by decide⟩
  decide

/-- C8 amended: `validateEntryKey` accepts a key if and only if it is a
non-empty string of at most 255 characters (UTF-16 code units, not
bytes), contains none of NUL, LF, CR (other control characters such as
TAB are allowed), and has no leading or trailing whitespace. -/
theorem validateEntryKey_accepts_iff (s : String) :
    (validateEntryKey s).valid = true ↔
      (s ≠ "" ∧ s.length ≤ 255 ∧
        Char.ofNat 0 ∉ s.data ∧ Char.ofNat 10 ∉ s.data ∧
        Char.ofNat 13 ∉ s.data ∧ jsTrim s = s) := by
  unfold validateEntryKey
  split_ifs with h1 h2 h3 h4
  · simp only [Bool.false_eq_true, false_iff]
    rintro ⟨hs, -, -, -, -, ht⟩
    rcases h1 with h1 | h1
    · exact hs h1
    · exact hs (by rw [← ht]; exact length_zero_eq_empty _ h1)
  · simp only [Bool.false_eq_true, false_iff]
    rintro ⟨-, hlen, -⟩
    omega
  · simp only [Bool.false_eq_true, false_iff]
    rintro ⟨-, -, h0, hl, hr, -⟩
    rcases h3 with h | h | h
    · exact h0 h
    · exact hl h
    · exact hr h
  · simp only [Bool.false_eq_true, false_iff]
    rintro ⟨-, -, -, -, -, ht⟩
    exact h4 ht
  · simp only [true_iff]
    push_neg at h1 h3
    exact ⟨h1.1, by omega, h3.1, h3.2.1, h3.2.2, not_not.mp h4⟩

/-- Witness for C8's amended claim: "github" is accepted. -/
theorem validateEntryKey_accepts_iff_witness :
    (validateEntryKey "github").valid = true :=
  (validateEntryKey_accepts_iff "github").mpr (by decide)

/-- C3 (code bug): with a persisted state whose `lockedUntil` (600000)
is strictly in the future of `now = 0`, `waitIfNeeded` throws the
lockout message internally, but its own catch clause rethrows only
errors containing the lowercase string `"locked out"` while the message
says `"Locked out"`, so the error is swallowed and the call returns
`false` — the unlock attempt then proceeds to decryption instead of
failing with the lockout error. -/
theorem waitIfNeeded_lockout_swallowed :
    waitIfNeeded (.ok ⟨0, 10, 600000⟩) 0 1000 = .ok false ∧
    jsIncludes (lockoutMessage 600000) "locked out" = false ∧
    jsIncludes (lockoutMessage 600000) "Locked out" = true ∧
    (0 : Nat) < 600000 :=
  ⟨rfl, by decide, by decide, by decide⟩

/-- C5: `recordFailure` stamps `lastAttempt := now`, increments the
persisted counter (after resetting it to zero when the failure window
of `2 × minDelay` has expired), sets `lockedUntil := now + 5 minutes`
exactly when the incremented count reaches the threshold of 10, and
persists the result; read or write failures are swallowed — the call
always returns normally, merely persisting nothing. -/
theorem recordFailure_spec (st : AttemptsState) (now minDelay : Nat) :
    (recordFailureCore st now minDelay).lastAttempt = now ∧
    (recordFailureCore st now minDelay).failedAttempts =
      (if st.lastAttempt ≠ 0 ∧ 2 * minDelay < now - st.lastAttempt then 0
       else st.failedAttempts) + 1 ∧
    (recordFailureCore st now minDelay).lockedUntil =
      (if maxFailedAttempts ≤ (recordFailureCore st now minDelay).failedAttempts
       then now + lockoutDurationMs
       else st.lockedUntil) ∧
    recordFailure (.ok st) true now minDelay =
      .ok (some (recordFailureCore st now minDelay)) ∧
    recordFailure (.ok st) false now minDelay = .ok none ∧
    recordFailure .err true now minDelay = .ok none ∧
    recordFailure .err false now minDelay = .ok none :=
  ⟨rfl, rfl, rfl, rfl, rfl, rfl, rfl⟩

/-- C6: on a persisted state with `lastAttempt` set, the next
`recordFailure` stores `failedAttempts = 1` when more than
`2 × minDelay` has elapsed since `lastAttempt`, and `n + 1` otherwise —
the counter decays only by elapsed time, never merely because the
process restarted (the state is read back from the persisted file). -/
theorem recordFailure_decay (st : AttemptsState) (now minDelay : Nat)
    (h : st.lastAttempt ≠ 0) :
    (2 * minDelay < now - st.lastAttempt →
      (recordFailureCore st now minDelay).failedAttempts = 1) ∧
    (now - st.lastAttempt ≤ 2 * minDelay →
      (recordFailureCore st now minDelay).failedAttempts =
        st.failedAttempts + 1) := by
  constructor <;> intro hg
  · simp [recordFailureCore, h, hg]
  · simp [recordFailureCore, h, Nat.not_lt.mpr hg]

/-- Witness for C6: after 5 failures at t=1000 and a gap of 3001 ms
(> 2 × 1000), the next failure stores a count of 1, not 6. -/
theorem recordFailure_decay_witness :
    (recordFailureCore ⟨1000, 5, 0⟩ 4001 1000).failedAttempts = 1 ∧
    (1 : Nat) ≠ 6 :=
  ⟨(recordFailure_decay ⟨1000, 5, 0⟩ 4001 1000 (by decide)).1 (by decide),
    by decide⟩

/-- Helper: a successful `Except` yields a value. -/
theorem exOk_exists {ε α : Type} (x : Except ε α) (h : exOk x = true) :
    ∃ a, x = .ok a := by
  cases x with
  | ok a => exact ⟨a, rfl⟩
  | error e => simp [exOk] at h

/-- Helper: reading the path just written. -/
theorem fsSet_self (fs : FS) (p : String) (c : Option VFile) :
    fsSet fs p c p = c := by
  simp [fsSet]

/-- Helper: writing one path leaves the others alone. -/
theorem fsSet_other (fs : FS) (p q : String) (c : Option VFile)
    (h : q ≠ p) : fsSet fs p c q = fs q := by
  simp [fsSet, h]

/-- Helper: no path equals itself with ".backup" appended. -/
theorem ne_append_backup (p : String) : p ≠ p ++ ".backup" := by
  intro h
  have hlen := congrArg String.length h
  rw [String.length_append] at hlen
  have h7 : (".backup" : String).length = 7 := rfl
  omega

/-- Helper: the JSON round-trip deep copy is the identity on vault
records. -/
theorem deepCopyVault_eq (v : VaultRecord) : deepCopyVault v = v := by
  cases v with
  | mk es c u =>
    simp only [deepCopyVault]
    congr 1
    have h : (fun kv : String × EntryRec =>
        (kv.1, EntryRec.mk kv.2.username kv.2.password)) =
        fun kv => kv := by
      funext kv
      rfl
    rw [h, List.map_id']

/-- C9 counterexample: the claim quantifies over every prior state of
the audit file; with a prior file already holding 1001 entries and a
log call whose write fails, the failure is swallowed and the stored log
afterwards still holds 1001 > 1000 entries. -/
theorem auditLog_claim_false :
    auditLogStep (some oversizedAudit) false false auditEntryB =
      .ok (some oversizedAudit) ∧
    1000 < oversizedAudit.length := by
  refine ⟨rfl, ?_⟩
  rw [oversizedAudit, List.length_replicate]
  omega

/-- C9 amended: `AuditLogger.log` never raises; a call that reads the
audit file successfully (or finds it absent) and writes successfully
stores exactly the most recent `maxEntries` (1000) of the appended log
— hence at most 1000 entries — and a call whose read or write fails
leaves the stored file unchanged, the failure being swallowed. -/
theorem auditLog_cap (prior : List LogEntry)
    (file : Option (List LogEntry)) (readFault writeOk : Bool)
    (e : LogEntry) :
    exOk (auditLogStep file readFault writeOk e) = true ∧
    auditLogStep (some prior) false true e =
      .ok (some ((prior ++ [e]).drop
        ((prior ++ [e]).length - auditMaxEntries))) ∧
    ((prior ++ [e]).drop
      ((prior ++ [e]).length - auditMaxEntries)).length ≤
      auditMaxEntries ∧
    auditLogStep file readFault false e = .ok file ∧
    auditLogStep file true writeOk e = .ok file := by
  refine ⟨?_, ?_, ?_, ?_, rfl⟩
  · unfold auditLogStep
    split_ifs <;> rfl
  · by_cases hlen : auditMaxEntries < prior.length + 1
    · simp [auditLogStep, hlen]
    · have h0 : prior.length + 1 - auditMaxEntries = 0 := by omega
      simp [auditLogStep, hlen, h0]
  · simp only [List.length_drop]
    omega
  · cases readFault <;> simp [auditLogStep]

/-- C10: `saveVault` mutates the caller's vault argument in place: on
every path — including lock and write failures — the argument ends with
`updatedAt` overwritten by the current timestamp and every other field
unchanged, and the envelope written on the success path encrypts
exactly that mutated record (the stamp happens before encrypting). -/
theorem saveVault_mutates_arg (fs : FS) (path pw : String)
    (v : VaultRecord) (now : String) (salt iv : List Nat)
    (lockO : LockOutcome) (writeOk : Bool) (sz : Nat) :
    (saveVault fs path pw v now salt iv lockO writeOk sz).arg =
      { v with updatedAt := now } ∧
    ({ v with updatedAt := now } : VaultRecord).entries = v.entries ∧
    ({ v with updatedAt := now } : VaultRecord).createdAt = v.createdAt ∧
    ({ v with updatedAt := now } : VaultRecord).updatedAt = now ∧
    (saveVault fs path pw v now salt iv .acquired true sz).fs path =
      some ⟨encryptJson { v with updatedAt := now } pw salt iv, sz⟩ := by
  refine ⟨?_, rfl, rfl, rfl, ?_⟩
  · cases lockO <;> cases writeOk <;> rfl
  · simp [saveVault, fsSet]

/-- C7: when the vault at `path` decrypts under the old password to V,
`changeMasterPassword` hands `saveVault` a deep copy, so the in-memory
decrypted vault stays V on every path — including lock and write
failures — and when the rekey succeeds, loading the vault with the new
password yields V with only `updatedAt` restamped: exactly the same
entries mapping. -/
theorem changeMasterPassword_preserves_entries
    (fs : FS) (path oldPw newPw now : String) (f : VFile)
    (v : VaultRecord) (salt iv : List Nat) (t t' : ReadAttempts)
    (tn tm tn' tm' : Nat) (lockO : LockOutcome) (writeOk : Bool)
    (sz : Nat)
    (hf : fs path = some f)
    (hdec : decryptJson f.env oldPw = .ok v)
    (ht : exOk (waitIfNeeded t tn tm) = true)
    (ht' : exOk (waitIfNeeded t' tn' tm') = true) :
    (changeMasterPassword fs path oldPw newPw now salt iv t tn tm lockO
        writeOk sz).mem = some v ∧
    (lockO ≠ .failed → writeOk = true →
      (changeMasterPassword fs path oldPw newPw now salt iv t tn tm lockO
          writeOk sz).result = .ok () ∧
      loadVault (changeMasterPassword fs path oldPw newPw now salt iv t
          tn tm lockO writeOk sz).fs path newPw t' tn' tm' =
        .ok { v with updatedAt := now } ∧
      ({ v with updatedAt := now } : VaultRecord).entries = v.entries) := by
  obtain ⟨b, hb⟩ := exOk_exists _ ht
  obtain ⟨b', hb'⟩ := exOk_exists _ ht'
  have hload : loadVault fs path oldPw t tn tm = .ok v := by
    simp [loadVault, hb, hf, hdec]
  have hcp : deepCopyVault v = v := deepCopyVault_eq v
  constructor
  · unfold changeMasterPassword
    rw [hload]
    cases lockO <;> cases writeOk <;> simp [saveVault]
  · intro hlock hwrite
    subst hwrite
    unfold changeMasterPassword
    rw [hload]
    cases lockO
    case failed => exact absurd rfl hlock
    all_goals
      refine ⟨rfl, ?_, rfl⟩
    all_goals
      simp [saveVault, loadVault, hb', fsSet, ne_append_backup path,
        hcp, decryptJson, encryptJson, deriveKey]

/-- Witness for C7 at a concrete vault, file system and rekey. -/
theorem changeMasterPassword_preserves_entries_witness :
    (changeMasterPassword sampleFs "/v.json" "old-pw" "new-pw" "t1"
        [3] [4] .enoent 0 1000 .acquired true 50).mem =
      some sampleVault ∧
    (changeMasterPassword sampleFs "/v.json" "old-pw" "new-pw" "t1"
        [3] [4] .enoent 0 1000 .acquired true 50).result = .ok () ∧
    loadVault (changeMasterPassword sampleFs "/v.json" "old-pw" "new-pw"
        "t1" [3] [4] .enoent 0 1000 .acquired true 50).fs "/v.json"
      "new-pw" .enoent 0 1000 =
      .ok { sampleVault with updatedAt := "t1" } := by
  have h := changeMasterPassword_preserves_entries sampleFs "/v.json"
    "old-pw" "new-pw" "t1" ⟨sampleEnv, 42⟩ sampleVault [3] [4] .enoent
    .enoent 0 1000 0 1000 .acquired true 50 rfl rfl rfl rfl
  exact ⟨h.1, (h.2 (by decide) rfl).1, (h.2 (by decide) rfl).2.1⟩

/-- C4: for a vault at `oldPath` decrypting under the password, with the
destination absent and its directory writable, and for every possible
tampering of the copy and every unlink outcome: (1) the source is gone
afterwards only if the destination content fully decrypted and its size
matched the source; (2) if verification fails, the operation fails, the
original file is untouched, and the destination copy is removed
whenever removable (a failed removal is only a warning — the result is
the same error); (3) on success the source is gone and the verified
destination is the one vault file that remains. -/
theorem moveVault_verify_then_delete
    (fs : FS) (oldPath newPath pw : String) (src : VFile)
    (v : VaultRecord) (t1 t2 : ReadAttempts) (n1 n2 md : Nat)
    (corrupt : Option VFile) (uOld uNew : Bool)
    (hsrc : fs oldPath = some src)
    (hdec : decryptJson src.env pw = .ok v)
    (hdst : fs newPath = none)
    (ht1 : exOk (waitIfNeeded t1 n1 md) = true)
    (ht2 : exOk (waitIfNeeded t2 n2 md) = true) :
    ((moveVault fs oldPath newPath pw t1 t2 n1 n2 md true corrupt uOld
        uNew).fs oldPath = none →
      exOk (decryptJson (corrupt.getD src).env pw) = true ∧
      (corrupt.getD src).size = src.size ∧
      (moveVault fs oldPath newPath pw t1 t2 n1 n2 md true corrupt uOld
        uNew).result = .ok () ∧
      (moveVault fs oldPath newPath pw t1 t2 n1 n2 md true corrupt uOld
        uNew).fs newPath = some (corrupt.getD src)) ∧
    ((exOk (decryptJson (corrupt.getD src).env pw) = false ∨
        (corrupt.getD src).size ≠ src.size) →
      exOk (moveVault fs oldPath newPath pw t1 t2 n1 n2 md true corrupt
        uOld uNew).result = false ∧
      (moveVault fs oldPath newPath pw t1 t2 n1 n2 md true corrupt uOld
        uNew).fs oldPath = some src ∧
      (uNew = true →
        (moveVault fs oldPath newPath pw t1 t2 n1 n2 md true corrupt
          uOld uNew).fs newPath = none)) ∧
    ((moveVault fs oldPath newPath pw t1 t2 n1 n2 md true corrupt uOld
        uNew).result = .ok () →
      (moveVault fs oldPath newPath pw t1 t2 n1 n2 md true corrupt uOld
        uNew).fs oldPath = none ∧
      (moveVault fs oldPath newPath pw t1 t2 n1 n2 md true corrupt uOld
        uNew).fs newPath = some (corrupt.getD src) ∧
      exOk (decryptJson (corrupt.getD src).env pw) = true ∧
      (corrupt.getD src).size = src.size) := by
  obtain ⟨b1, hb1⟩ := exOk_exists _ ht1
  obtain ⟨b2, hb2⟩ := exOk_exists _ ht2
  have hne : oldPath ≠ newPath := by
    intro h
    rw [h, hdst] at hsrc
    exact Option.noConfusion hsrc
  have hne' : newPath ≠ oldPath := Ne.symm hne
  have hload1 : loadVault fs oldPath pw t1 n1 md = .ok v := by
    simp [loadVault, hb1, hsrc, hdec]
  have hload2 : loadVault (fsSet fs newPath (some (corrupt.getD src)))
      newPath pw t2 n2 md = decryptJson (corrupt.getD src).env pw := by
    simp [loadVault, hb2, fsSet]
  cases hd : decryptJson (corrupt.getD src).env pw with
  | error m =>
    have hmv : moveVault fs oldPath newPath pw t1 t2 n1 n2 md true
        corrupt uOld uNew =
        ⟨.error ("Failed to move vault - rolled back: " ++ m),
          if uNew then
            fsSet (fsSet fs newPath (some (corrupt.getD src))) newPath
              none
          else fsSet fs newPath (some (corrupt.getD src))⟩ := by
      simp [moveVault, hload1, hdst, hsrc, hload2, hd]
    have hold : (moveVault fs oldPath newPath pw t1 t2 n1 n2 md true
        corrupt uOld uNew).fs oldPath = some src := by
      rw [hmv]
      cases uNew <;> simp [fsSet, hne, hsrc]
    refine ⟨?_, ?_, ?_⟩
    · intro h
      rw [hold] at h
      exact Option.noConfusion h
    · intro _
      refine ⟨by rw [hmv]; rfl, hold, ?_⟩
      intro hu
      subst hu
      rw [hmv]
      simp [fsSet]
    · intro h
      rw [hmv] at h
      simp at h

  | ok w =>
    by_cases hsz : src.size = (corrupt.getD src).size
    · have hszne : ¬src.size ≠ (corrupt.getD src).size := by omega
      cases uOld
      · -- unlinking the verified source fails: rollback
        have hmv : moveVault fs oldPath newPath pw t1 t2 n1 n2 md true
            corrupt false uNew =
            ⟨.error ("Failed to move vault - rolled back: " ++
                "vault unlink failed"),
              if uNew then
                fsSet (fsSet fs newPath (some (corrupt.getD src)))
                  newPath none
              else fsSet fs newPath (some (corrupt.getD src))⟩ := by
          simp [moveVault, hload1, hdst, hsrc, hload2, hd, hszne]
        have hold : (moveVault fs oldPath newPath pw t1 t2 n1 n2 md true
            corrupt false uNew).fs oldPath = some src := by
          rw [hmv]
          cases uNew <;> simp [fsSet, hne, hsrc]
        refine ⟨?_, ?_, ?_⟩
        · intro h
          rw [hold] at h
          exact Option.noConfusion h
        · intro hor
          rcases hor with hor | hor
          · simp [exOk] at hor
          · exact absurd hsz.symm hor
        · intro h
          rw [hmv] at h
          simp at h
      · -- verification succeeded and the source unlink succeeds
        have hmv : moveVault fs oldPath newPath pw t1 t2 n1 n2 md true
            corrupt true uNew =
            ⟨.ok (), fsSet (fsSet fs newPath (some (corrupt.getD src)))
              oldPath none⟩ := by
          simp [moveVault, hload1, hdst, hsrc, hload2, hd, hszne]
        refine ⟨?_, ?_, ?_⟩
        · intro _
          refine ⟨rfl, hsz.symm, by rw [hmv], ?_⟩
          rw [hmv]
          simp [fsSet, hne']
        · intro hor
          rcases hor with hor | hor
          · simp [exOk] at hor
          · exact absurd hsz.symm hor
        · intro _
          refine ⟨?_, ?_, rfl, hsz.symm⟩
          · rw [hmv]
            simp [fsSet]
          · rw [hmv]
            simp [fsSet, hne']
    · -- size mismatch after copy: rollback
      have hszne : src.size ≠ (corrupt.getD src).size := hsz
      have hmv : moveVault fs oldPath newPath pw t1 t2 n1 n2 md true
          corrupt uOld uNew =
          ⟨.error ("Failed to move vault - rolled back: " ++
              "File size mismatch after copy"),
            if uNew then
              fsSet (fsSet fs newPath (some (corrupt.getD src))) newPath
                none
            else fsSet fs newPath (some (corrupt.getD src))⟩ := by
        simp [moveVault, hload1, hdst, hsrc, hload2, hd, hszne]
      have hold : (moveVault fs oldPath newPath pw t1 t2 n1 n2 md true
          corrupt uOld uNew).fs oldPath = some src := by
        rw [hmv]
        cases uNew <;> simp [fsSet, hne, hsrc]
      refine ⟨?_, ?_, ?_⟩
      · intro h
        rw [hold] at h
        exact Option.noConfusion h
      · intro _
        refine ⟨by rw [hmv]; rfl, hold, ?_⟩
        intro hu
        subst hu
        rw [hmv]
        simp [fsSet]
      · intro h
        rw [hmv] at h
        simp at h

/-- Witness for C4: an untampered relocate of the sample vault from
"/a.json" to "/b.json" succeeds and leaves exactly the destination. -/
theorem moveVault_verify_then_delete_witness :
    (moveVault moveFs "/a.json" "/b.json" "old-pw" .enoent .enoent 0 0
      1000 true none true true).fs "/a.json" = none ∧
    (moveVault moveFs "/a.json" "/b.json" "old-pw" .enoent .enoent 0 0
      1000 true none true true).fs "/b.json" =
      some ⟨sampleEnv, 42⟩ ∧
    exOk (decryptJson sampleEnv "old-pw") = true := by
  have h := moveVault_verify_then_delete moveFs "/a.json" "/b.json"
    "old-pw" ⟨sampleEnv, 42⟩ sampleVault .enoent .enoent 0 0 1000 none
    true true rfl rfl rfl rfl rfl
  have h3 := h.2.2 (by rfl)
  exact ⟨h3.1, h3.2.1, h3.2.2.1⟩

end Pwcli
